import Mathlib

/-!
Verification of the `DistAutogradContainer` component declared in
`torch/csrc/distributed/autograd/context/container.h`.

The repository ships only the header: the class declaration, field list and
documentation comments.  The member-function bodies are not part of the source
tree, so every operation below is modelled from the specification's
description of its behaviour (each such definition carries a doc comment
starting `Modelled from the spec:`), while staying faithful to the header's
declarations, field names and comments wherever the header speaks.

Machine integers: ids are C++ `int64_t` values of the form
`(worker_id << 48) | counter` with `worker_id < 2^16` and `counter < 2^48`;
all values stay below `2^63`, so they are represented as `Nat` and no overflow
reduction is needed.
-/

namespace DistAutograd

/-- Error taxonomy of the spec (§7): initialization misuse, strict lookup on an
absent id, thread-local cursor misuse, and id-space exhaustion. -/
inductive RegistryError where
  | AlreadyInitialized
  | NotInitialized
  | NotFound
  | AlreadyBound
  | NoActiveContext
  | ResourceExhausted
deriving DecidableEq, Repr

/-- Modelled from the spec: a `DistAutogradContext` is an opaque mutable entity
keyed by its `contextId`.  The `stamp` field is a ghost creation counter
standing for object identity (which construction produced this object), so
that "the same single Context" is expressible in the model; the container
hands out a fresh stamp each time it constructs a context. -/
structure DistAutogradContext where
  contextId : Nat
  stamp : Nat
deriving DecidableEq, Repr

/-- State of the `DistAutogradContainer` singleton, with the fields of the
header (`container.h` lines 99-120).  The thread-local current context id
(declared `thread_local` in the implementation, outside this header) is
modelled as a map from thread id to an optional bound context id, and
`next_stamp_` is the ghost counter feeding `DistAutogradContext.stamp`. -/
structure DistAutogradContainer where
  worker_id_ : Nat
  next_context_id_ : Nat
  next_autograd_message_id_ : Nat
  autograd_context_ : List (Nat × DistAutogradContext)
  initialized_ : Bool
  max_id_ : Nat
  current_context_id_ : Nat → Option Nat
  next_stamp_ : Nat

/-- Modelled from the spec (§4.1, the body of `init` is not in the source):
seeds both counters' high bits with the worker tag and sets `max_id_` to the
largest id whose low 48-bit counter field is all ones. -/
def initContainer (worker_id : Nat) : DistAutogradContainer :=
  { worker_id_ := worker_id
    next_context_id_ := worker_id <<< 48
    next_autograd_message_id_ := worker_id <<< 48
    autograd_context_ := []
    initialized_ := true
    max_id_ := worker_id <<< 48 ||| (2 ^ 48 - 1)
    current_context_id_ := fun _ => none
    next_stamp_ := 0 }

/-- Modelled from the spec: process-wide one-time initialization.  The process
state is `none` before `init` and `some c` afterwards; a second call fails
with `AlreadyInitialized` (§4.1). -/
def init (worker_id : Nat) (s : Option DistAutogradContainer) :
    Except RegistryError (DistAutogradContainer × Option DistAutogradContainer) :=
  match s with
  | some _ => .error .AlreadyInitialized
  | none => .ok (initContainer worker_id, some (initContainer worker_id))

/-- Modelled from the spec: returns the process-wide singleton; fails with
`NotInitialized` if `init` was never called (§4.1). -/
def getInstance (s : Option DistAutogradContainer) :
    Except RegistryError DistAutogradContainer :=
  match s with
  | none => .error .NotInitialized
  | some c => .ok c

/-- Header line 71: retrieves the worker id for this node. -/
def DistAutogradContainer.getWorkerId (c : DistAutogradContainer) : Nat :=
  c.worker_id_

/-- Header line 68: retrieves the maximum possible id this worker can mint. -/
def DistAutogradContainer.getMaxId (c : DistAutogradContainer) : Nat :=
  c.max_id_

/-- Modelled from the spec (§4.2, the allocator body is not in the source):
post-increment of `next_context_id_`; fails with `ResourceExhausted` once the
counter has reached `max_id_` instead of wrapping (§8: seeding the counter to
`maxId` and allocating once more yields `ResourceExhausted`, so `max_id_`
itself is never issued). -/
def DistAutogradContainer.newPassId (c : DistAutogradContainer) :
    Except RegistryError (Nat × DistAutogradContainer) :=
  if c.next_context_id_ < c.max_id_ then
    .ok (c.next_context_id_, { c with next_context_id_ := c.next_context_id_ + 1 })
  else
    .error .ResourceExhausted

/-- Header line 59 and spec §4.2: the message-id allocator, same encoding as
pass ids but on the independent `next_autograd_message_id_` counter. -/
def DistAutogradContainer.newAutogradMessageId (c : DistAutogradContainer) :
    Except RegistryError (Nat × DistAutogradContainer) :=
  if c.next_autograd_message_id_ < c.max_id_ then
    .ok (c.next_autograd_message_id_,
         { c with next_autograd_message_id_ := c.next_autograd_message_id_ + 1 })
  else
    .error .ResourceExhausted

/-- Header lines 61-64: creates a context with the provided id, or returns the
existing one; never inserts a second entry for an id already present. -/
def DistAutogradContainer.getOrCreateContext (c : DistAutogradContainer)
    (context_id : Nat) : DistAutogradContext × DistAutogradContainer :=
  match c.autograd_context_.lookup context_id with
  | some ctx => (ctx, c)
  | none =>
    let ctx : DistAutogradContext := ⟨context_id, c.next_stamp_⟩
    (ctx, { c with
              autograd_context_ := (context_id, ctx) :: c.autograd_context_
              next_stamp_ := c.next_stamp_ + 1 })

/-- Header line 50: strict lookup, fails with `NotFound` when absent. -/
def DistAutogradContainer.retrieveContext (c : DistAutogradContainer)
    (context_id : Nat) : Except RegistryError DistAutogradContext :=
  match c.autograd_context_.lookup context_id with
  | some ctx => .ok ctx
  | none => .error .NotFound

/-- Header line 36 and spec §4.3: mints a fresh pass id and installs a new
context under it; does not touch any thread's cursor. -/
def DistAutogradContainer.newContext (c : DistAutogradContainer) :
    Except RegistryError (DistAutogradContext × DistAutogradContainer) :=
  match c.newPassId with
  | .error e => .error e
  | .ok (context_id, c') => .ok (c'.getOrCreateContext context_id)

/-- Header lines 90-92: sends the release RPC to peer workers.  Modelled from
the spec: fire-and-forget — the transport outcome `delivered` is ignored, no
error is surfaced and the local state is unaffected. -/
def DistAutogradContainer.sendReleaseContextRpc (c : DistAutogradContainer)
    (_delivered : Bool) (_context_id : Nat) : DistAutogradContainer := c

/-- Header lines 94-97: erase `context_id` from the context map and reset the
calling thread's current context id if it corresponds to `context_id`. -/
def DistAutogradContainer.eraseContextIdAndReset (c : DistAutogradContainer)
    (tid context_id : Nat) : DistAutogradContainer :=
  { c with
    autograd_context_ := c.autograd_context_.filter (fun p => p.1 != context_id)
    current_context_id_ := fun t =>
      if t = tid then
        match c.current_context_id_ t with
        | some bound => if bound = context_id then none else some bound
        | none => none
      else c.current_context_id_ t }

/-- Header lines 38-42 and spec §4.3: strict release, called by thread `tid`;
`delivered` is the (ignored) transport outcome of the peer notification. -/
def DistAutogradContainer.releaseContext (c : DistAutogradContainer)
    (tid context_id : Nat) (delivered : Bool) :
    Except RegistryError DistAutogradContainer :=
  match c.autograd_context_.lookup context_id with
  | none => .error .NotFound
  | some _ =>
    .ok (((c.eraseContextIdAndReset tid context_id).sendReleaseContextRpc
            delivered context_id))

/-- Header lines 44-47 and spec §4.3: lenient release, a no-op (and no error)
when `context_id` is absent. -/
def DistAutogradContainer.releaseContextIfPresent (c : DistAutogradContainer)
    (tid context_id : Nat) (delivered : Bool) : DistAutogradContainer :=
  match c.autograd_context_.lookup context_id with
  | none => c
  | some _ =>
    ((c.eraseContextIdAndReset tid context_id).sendReleaseContextRpc
       delivered context_id)

/-- Header lines 73-74 and spec §4.4: binds the cursor of thread `tid`; fails
with `AlreadyBound` when the thread already has a bound cursor. -/
def DistAutogradContainer.setCurrentContextId (c : DistAutogradContainer)
    (tid context_id : Nat) : Except RegistryError DistAutogradContainer :=
  match c.current_context_id_ tid with
  | some _ => .error .AlreadyBound
  | none =>
    .ok { c with current_context_id_ := fun t =>
            if t = tid then some context_id else c.current_context_id_ t }

/-- Header lines 76-77 and spec §4.4: unbinds the cursor unconditionally. -/
def DistAutogradContainer.clearCurrentContext (c : DistAutogradContainer)
    (tid : Nat) : DistAutogradContainer :=
  { c with current_context_id_ := fun t =>
      if t = tid then none else c.current_context_id_ t }

/-- Header line 56 and spec §4.4: whether thread `tid` has a bound cursor. -/
def DistAutogradContainer.hasValidContext (c : DistAutogradContainer)
    (tid : Nat) : Bool :=
  (c.current_context_id_ tid).isSome

/-- Header line 53 and spec §4.4: the context referenced by thread `tid`'s
cursor; fails with `NoActiveContext` when none is bound. -/
def DistAutogradContainer.currentContext (c : DistAutogradContainer)
    (tid : Nat) : Except RegistryError DistAutogradContext :=
  match c.current_context_id_ tid with
  | none => .error .NoActiveContext
  | some context_id => c.retrieveContext context_id

/-- One call to either id allocator, for reasoning about arbitrary sequences
of successive allocator calls on one container. -/
inductive AllocCall where
  | passId
  | messageId
deriving DecidableEq, Repr

/-- Whether an allocator call is a pass-id call. -/
def AllocCall.isPass : AllocCall → Bool
  | .passId => true
  | .messageId => false

/-- Whether an allocator call is a message-id call. -/
def AllocCall.isMsg : AllocCall → Bool
  | .passId => false
  | .messageId => true

/-- Performs one allocator call, keeping the state unchanged on failure. -/
def allocStep (c : DistAutogradContainer) :
    AllocCall → Except RegistryError Nat × DistAutogradContainer
  | .passId =>
    match c.newPassId with
    | .ok (v, c') => (.ok v, c')
    | .error e => (.error e, c)
  | .messageId =>
    match c.newAutogradMessageId with
    | .ok (v, c') => (.ok v, c')
    | .error e => (.error e, c)

/-- Runs a sequence of allocator calls, returning the per-call results and the
final container state. -/
def runAllocs (c : DistAutogradContainer) :
    List AllocCall →
      List (AllocCall × Except RegistryError Nat) × DistAutogradContainer
  | [] => ([], c)
  | a :: rest =>
    let s := allocStep c a
    let r := runAllocs s.2 rest
    ((a, s.1) :: r.1, r.2)

/-- The values successfully returned to the `fam` family of calls, in call
order. -/
def okResults (fam : AllocCall)
    (out : List (AllocCall × Except RegistryError Nat)) : List Nat :=
  out.filterMap fun p => if p.1 = fam then p.2.toOption else none

/-- One mutating operation of the container's public surface, for reasoning
about arbitrary operation sequences. -/
inductive ContainerOp where
  | opNewContext
  | opNewAutogradMessageId
  | opGetOrCreateContext (context_id : Nat)
  | opReleaseContext (tid context_id : Nat) (delivered : Bool)
  | opReleaseContextIfPresent (tid context_id : Nat) (delivered : Bool)
  | opSetCurrentContextId (tid context_id : Nat)
  | opClearCurrentContext (tid : Nat)
deriving DecidableEq, Repr

/-- Applies one operation, keeping the state unchanged when the operation
fails. -/
def applyOp (c : DistAutogradContainer) : ContainerOp → DistAutogradContainer
  | .opNewContext =>
    match c.newContext with
    | .ok (_, c') => c'
    | .error _ => c
  | .opNewAutogradMessageId =>
    match c.newAutogradMessageId with
    | .ok (_, c') => c'
    | .error _ => c
  | .opGetOrCreateContext context_id => (c.getOrCreateContext context_id).2
  | .opReleaseContext tid context_id d =>
    match c.releaseContext tid context_id d with
    | .ok c' => c'
    | .error _ => c
  | .opReleaseContextIfPresent tid context_id d =>
    c.releaseContextIfPresent tid context_id d
  | .opSetCurrentContextId tid context_id =>
    match c.setCurrentContextId tid context_id with
    | .ok c' => c'
    | .error _ => c
  | .opClearCurrentContext tid => c.clearCurrentContext tid

/-- Runs a sequence of container operations. -/
def runOps (c : DistAutogradContainer) (ops : List ContainerOp) :
    DistAutogradContainer :=
  ops.foldl applyOp c

/-- Well-formedness of a container state: the worker tag fits in 16 bits,
`max_id_` is the largest id carrying this tag, and both counters lie in this
worker's id range.  Holds for `initContainer` and is preserved by every
operation. -/
def WF (c : DistAutogradContainer) : Prop :=
  c.worker_id_ < 2 ^ 16 ∧
  c.max_id_ = c.worker_id_ * 2 ^ 48 + (2 ^ 48 - 1) ∧
  c.worker_id_ * 2 ^ 48 ≤ c.next_context_id_ ∧
  c.next_context_id_ ≤ c.max_id_ ∧
  c.worker_id_ * 2 ^ 48 ≤ c.next_autograd_message_id_ ∧
  c.next_autograd_message_id_ ≤ c.max_id_

instance (c : DistAutogradContainer) : Decidable (WF c) := by
  unfold WF; infer_instance

/-- An event on the release path; `container.h` requires
`eraseContextIdAndReset` and `sendReleaseContextRpc` to be called with the
lock held. -/
inductive ReleaseEvent where
  | lockAcquire
  | eraseEvent (context_id : Nat)
  | rpcSend (context_id : Nat)
  | lockRelease
deriving DecidableEq, Repr

/-- Modelled from the header's comments (lines 90-97): the release path takes
the registry lock, erases the entry, sends the release RPC — "This function
should be called with the lock." — and only then drops the lock. -/
def releaseContextTrace (context_id : Nat) : List ReleaseEvent :=
  [.lockAcquire, .eraseEvent context_id, .rpcSend context_id, .lockRelease]

/-- Whether some `rpcSend` event of the trace occurs while the registry lock
is held; `depth` counts the lock acquisitions currently outstanding. -/
def rpcSentWhileLocked (depth : Nat) : List ReleaseEvent → Bool
  | [] => false
  | .lockAcquire :: rest => rpcSentWhileLocked (depth + 1) rest
  | .lockRelease :: rest => rpcSentWhileLocked (depth - 1) rest
  | .eraseEvent _ :: rest => rpcSentWhileLocked depth rest
  | .rpcSend _ :: rest => decide (0 < depth) || rpcSentWhileLocked depth rest

/-! ### Bit-packing facts -/

/-- Packing a tag above a 48-bit counter by shift-and-or is plain addition. -/
lemma shiftLeft_or_eq (t k : Nat) (hk : k < 2 ^ 48) :
    t <<< 48 ||| k = t * 2 ^ 48 + k := by
  apply Nat.eq_of_testBit_eq
  intro i
  rw [Nat.testBit_or, Nat.testBit_shiftLeft, Nat.mul_comm t (2 ^ 48),
      Nat.testBit_mul_pow_two_add t hk i]
  by_cases h : i < 48
  · have hg : ¬ (i ≥ 48) := by omega
    simp [h, hg]
  · have hg : i ≥ 48 := by omega
    have hkf : Nat.testBit k i = false :=
      Nat.testBit_lt_two_pow
        (lt_of_lt_of_le hk (Nat.pow_le_pow_right (by norm_num) hg))
    simp [h, hg, hkf]

/-- The initial `max_id_` in arithmetic form. -/
lemma initContainer_max (w : Nat) :
    (initContainer w).max_id_ = w * 2 ^ 48 + (2 ^ 48 - 1) :=
  shiftLeft_or_eq w _ (Nat.sub_lt (Nat.two_pow_pos 48) one_pos)

/-- A freshly initialized container with a 16-bit tag is well formed. -/
lemma WF_initContainer {w : Nat} (hw : w < 2 ^ 16) : WF (initContainer w) :=
  ⟨hw, initContainer_max w,
   Nat.le_of_eq (Nat.shiftLeft_eq w 48).symm,
   by rw [show (initContainer w).next_context_id_ = w <<< 48 from rfl,
          initContainer_max w, Nat.shiftLeft_eq]
      exact Nat.le_add_right _ _,
   Nat.le_of_eq (Nat.shiftLeft_eq w 48).symm,
   by rw [show (initContainer w).next_autograd_message_id_ = w <<< 48 from rfl,
          initContainer_max w, Nat.shiftLeft_eq]
      exact Nat.le_add_right _ _⟩

/-! ### Characterization of single allocator steps -/

lemma newPassId_lt {c : DistAutogradContainer}
    (h : c.next_context_id_ < c.max_id_) :
    c.newPassId = .ok (c.next_context_id_,
      { c with next_context_id_ := c.next_context_id_ + 1 }) := by
  unfold DistAutogradContainer.newPassId
  rw [if_pos h]

lemma newPassId_ge {c : DistAutogradContainer}
    (h : ¬ c.next_context_id_ < c.max_id_) :
    c.newPassId = .error .ResourceExhausted := by
  unfold DistAutogradContainer.newPassId
  rw [if_neg h]

lemma newMessageId_lt {c : DistAutogradContainer}
    (h : c.next_autograd_message_id_ < c.max_id_) :
    c.newAutogradMessageId = .ok (c.next_autograd_message_id_,
      { c with next_autograd_message_id_ := c.next_autograd_message_id_ + 1 }) := by
  unfold DistAutogradContainer.newAutogradMessageId
  rw [if_pos h]

lemma newMessageId_ge {c : DistAutogradContainer}
    (h : ¬ c.next_autograd_message_id_ < c.max_id_) :
    c.newAutogradMessageId = .error .ResourceExhausted := by
  unfold DistAutogradContainer.newAutogradMessageId
  rw [if_neg h]

lemma allocStep_pass_lt1 {c : DistAutogradContainer}
    (h : c.next_context_id_ < c.max_id_) :
    (allocStep c .passId).1 = .ok c.next_context_id_ := by
  unfold allocStep
  rw [newPassId_lt h]

lemma allocStep_pass_lt2 {c : DistAutogradContainer}
    (h : c.next_context_id_ < c.max_id_) :
    (allocStep c .passId).2 =
      { c with next_context_id_ := c.next_context_id_ + 1 } := by
  unfold allocStep
  rw [newPassId_lt h]

lemma allocStep_pass_ge1 {c : DistAutogradContainer}
    (h : ¬ c.next_context_id_ < c.max_id_) :
    (allocStep c .passId).1 = .error .ResourceExhausted := by
  unfold allocStep
  rw [newPassId_ge h]

lemma allocStep_pass_ge2 {c : DistAutogradContainer}
    (h : ¬ c.next_context_id_ < c.max_id_) :
    (allocStep c .passId).2 = c := by
  unfold allocStep
  rw [newPassId_ge h]

lemma allocStep_msg_lt1 {c : DistAutogradContainer}
    (h : c.next_autograd_message_id_ < c.max_id_) :
    (allocStep c .messageId).1 = .ok c.next_autograd_message_id_ := by
  unfold allocStep
  rw [newMessageId_lt h]

lemma allocStep_msg_lt2 {c : DistAutogradContainer}
    (h : c.next_autograd_message_id_ < c.max_id_) :
    (allocStep c .messageId).2 =
      { c with next_autograd_message_id_ := c.next_autograd_message_id_ + 1 } := by
  unfold allocStep
  rw [newMessageId_lt h]

lemma allocStep_msg_ge1 {c : DistAutogradContainer}
    (h : ¬ c.next_autograd_message_id_ < c.max_id_) :
    (allocStep c .messageId).1 = .error .ResourceExhausted := by
  unfold allocStep
  rw [newMessageId_ge h]

lemma allocStep_msg_ge2 {c : DistAutogradContainer}
    (h : ¬ c.next_autograd_message_id_ < c.max_id_) :
    (allocStep c .messageId).2 = c := by
  unfold allocStep
  rw [newMessageId_ge h]

lemma runAllocs_cons1 (c : DistAutogradContainer) (a : AllocCall)
    (rest : List AllocCall) :
    (runAllocs c (a :: rest)).1 =
      (a, (allocStep c a).1) :: (runAllocs (allocStep c a).2 rest).1 := rfl

lemma okResults_cons_ok_self (fam : AllocCall) (v : Nat)
    (out : List (AllocCall × Except RegistryError Nat)) :
    okResults fam ((fam, Except.ok v) :: out) = v :: okResults fam out := by
  simp [okResults, List.filterMap_cons, Except.toOption]

lemma okResults_cons_err (fam a : AllocCall) (e : RegistryError)
    (out : List (AllocCall × Except RegistryError Nat)) :
    okResults fam ((a, Except.error e) :: out) = okResults fam out := by
  have hnone :
      (if a = fam then (Except.error e : Except RegistryError Nat).toOption
       else none) = none := by
    split <;> rfl
  simp [okResults, List.filterMap_cons, hnone]

lemma okResults_cons_ne {fam a : AllocCall} (h : a ≠ fam)
    (r : Except RegistryError Nat)
    (out : List (AllocCall × Except RegistryError Nat)) :
    okResults fam ((a, r) :: out) = okResults fam out := by
  simp [okResults, List.filterMap_cons, h]

/-! ### Allocator run facts -/

/-- Every pass id issued along a run is at least the starting counter and
strictly below `max_id_`. -/
lemma runAllocs_pass_lb : ∀ (calls : List AllocCall) (c : DistAutogradContainer),
    ∀ v ∈ okResults .passId (runAllocs c calls).1,
      c.next_context_id_ ≤ v ∧ v < c.max_id_ := by
  intro calls
  induction calls with
  | nil => intro c v hv; simp [runAllocs, okResults] at hv
  | cons a rest ih =>
    intro c v hv
    rw [runAllocs_cons1] at hv
    cases a with
    | passId =>
      by_cases h : c.next_context_id_ < c.max_id_
      · rw [allocStep_pass_lt1 h, allocStep_pass_lt2 h,
            okResults_cons_ok_self] at hv
        rcases List.mem_cons.mp hv with h1 | h2
        · exact ⟨Nat.le_of_eq h1.symm, h1 ▸ h⟩
        · have hr := ih _ v h2
          exact ⟨Nat.le_trans (Nat.le_succ _) hr.1, hr.2⟩
      · rw [allocStep_pass_ge1 h, allocStep_pass_ge2 h,
            okResults_cons_err] at hv
        exact ih c v hv
    | messageId =>
      by_cases h : c.next_autograd_message_id_ < c.max_id_
      · rw [allocStep_msg_lt1 h, allocStep_msg_lt2 h,
            okResults_cons_ne (by decide)] at hv
        have hr := ih _ v hv
        exact hr
      · rw [allocStep_msg_ge1 h, allocStep_msg_ge2 h,
            okResults_cons_err] at hv
        exact ih c v hv

/-- Every message id issued along a run is at least the starting counter and
strictly below `max_id_`. -/
lemma runAllocs_msg_lb : ∀ (calls : List AllocCall) (c : DistAutogradContainer),
    ∀ v ∈ okResults .messageId (runAllocs c calls).1,
      c.next_autograd_message_id_ ≤ v ∧ v < c.max_id_ := by
  intro calls
  induction calls with
  | nil => intro c v hv; simp [runAllocs, okResults] at hv
  | cons a rest ih =>
    intro c v hv
    rw [runAllocs_cons1] at hv
    cases a with
    | messageId =>
      by_cases h : c.next_autograd_message_id_ < c.max_id_
      · rw [allocStep_msg_lt1 h, allocStep_msg_lt2 h,
            okResults_cons_ok_self] at hv
        rcases List.mem_cons.mp hv with h1 | h2
        · exact ⟨Nat.le_of_eq h1.symm, h1 ▸ h⟩
        · have hr := ih _ v h2
          exact ⟨Nat.le_trans (Nat.le_succ _) hr.1, hr.2⟩
      · rw [allocStep_msg_ge1 h, allocStep_msg_ge2 h,
            okResults_cons_err] at hv
        exact ih c v hv
    | passId =>
      by_cases h : c.next_context_id_ < c.max_id_
      · rw [allocStep_pass_lt1 h, allocStep_pass_lt2 h,
            okResults_cons_ne (by decide)] at hv
        have hr := ih _ v hv
        exact hr
      · rw [allocStep_pass_ge1 h, allocStep_pass_ge2 h,
            okResults_cons_err] at hv
        exact ih c v hv

/-- The pass ids issued along a run are strictly increasing. -/
lemma runAllocs_pass_pairwise :
    ∀ (calls : List AllocCall) (c : DistAutogradContainer),
    List.Pairwise (· < ·) (okResults .passId (runAllocs c calls).1) := by
  intro calls
  induction calls with
  | nil => intro c; simp [runAllocs, okResults]
  | cons a rest ih =>
    intro c
    rw [runAllocs_cons1]
    cases a with
    | passId =>
      by_cases h : c.next_context_id_ < c.max_id_
      · rw [allocStep_pass_lt1 h, allocStep_pass_lt2 h, okResults_cons_ok_self]
        refine List.pairwise_cons.mpr ⟨?_, ih _⟩
        intro v hv
        exact Nat.lt_of_succ_le (runAllocs_pass_lb rest _ v hv).1
      · rw [allocStep_pass_ge1 h, allocStep_pass_ge2 h, okResults_cons_err]
        exact ih c
    | messageId =>
      by_cases h : c.next_autograd_message_id_ < c.max_id_
      · rw [allocStep_msg_lt1 h, allocStep_msg_lt2 h,
            okResults_cons_ne (by decide)]
        exact ih _
      · rw [allocStep_msg_ge1 h, allocStep_msg_ge2 h, okResults_cons_err]
        exact ih c

/-- The message ids issued along a run are strictly increasing. -/
lemma runAllocs_msg_pairwise :
    ∀ (calls : List AllocCall) (c : DistAutogradContainer),
    List.Pairwise (· < ·) (okResults .messageId (runAllocs c calls).1) := by
  intro calls
  induction calls with
  | nil => intro c; simp [runAllocs, okResults]
  | cons a rest ih =>
    intro c
    rw [runAllocs_cons1]
    cases a with
    | messageId =>
      by_cases h : c.next_autograd_message_id_ < c.max_id_
      · rw [allocStep_msg_lt1 h, allocStep_msg_lt2 h, okResults_cons_ok_self]
        refine List.pairwise_cons.mpr ⟨?_, ih _⟩
        intro v hv
        exact Nat.lt_of_succ_le (runAllocs_msg_lb rest _ v hv).1
      · rw [allocStep_msg_ge1 h, allocStep_msg_ge2 h, okResults_cons_err]
        exact ih c
    | passId =>
      by_cases h : c.next_context_id_ < c.max_id_
      · rw [allocStep_pass_lt1 h, allocStep_pass_lt2 h,
            okResults_cons_ne (by decide)]
        exact ih _
      · rw [allocStep_pass_ge1 h, allocStep_pass_ge2 h, okResults_cons_err]
        exact ih c

/-- From a well-formed state, every issued pass id carries the worker tag in
its high 16 bits above a 48-bit counter. -/
lemma runAllocs_pass_format {c : DistAutogradContainer} (hwf : WF c)
    (calls : List AllocCall) :
    ∀ v ∈ okResults .passId (runAllocs c calls).1,
      ∃ counter, counter < 2 ^ 48 ∧ v = c.worker_id_ <<< 48 ||| counter := by
  intro v hv
  obtain ⟨hlb, hub⟩ := runAllocs_pass_lb calls c v hv
  obtain ⟨_hw, hmax, hn, _, _, _⟩ := hwf
  have hA : c.worker_id_ * 2 ^ 48 ≤ v := le_trans hn hlb
  have hB : v < c.worker_id_ * 2 ^ 48 + (2 ^ 48 - 1) := hmax ▸ hub
  refine ⟨v - c.worker_id_ * 2 ^ 48, by omega, ?_⟩
  rw [shiftLeft_or_eq _ _ (by omega)]
  omega

/-- From a well-formed state, every issued message id carries the worker tag
in its high 16 bits above a 48-bit counter. -/
lemma runAllocs_msg_format {c : DistAutogradContainer} (hwf : WF c)
    (calls : List AllocCall) :
    ∀ v ∈ okResults .messageId (runAllocs c calls).1,
      ∃ counter, counter < 2 ^ 48 ∧ v = c.worker_id_ <<< 48 ||| counter := by
  intro v hv
  obtain ⟨hlb, hub⟩ := runAllocs_msg_lb calls c v hv
  obtain ⟨_hw, hmax, _, _, hm, _⟩ := hwf
  have hA : c.worker_id_ * 2 ^ 48 ≤ v := le_trans hm hlb
  have hB : v < c.worker_id_ * 2 ^ 48 + (2 ^ 48 - 1) := hmax ▸ hub
  refine ⟨v - c.worker_id_ * 2 ^ 48, by omega, ?_⟩
  rw [shiftLeft_or_eq _ _ (by omega)]
  omega

/-- The pass-id results of a mixed run depend only on the pass-id calls: the
message-id counter does not interfere. -/
lemma runAllocs_pass_proj :
    ∀ (calls : List AllocCall) (c₁ c₂ : DistAutogradContainer),
    c₁.next_context_id_ = c₂.next_context_id_ → c₁.max_id_ = c₂.max_id_ →
    okResults .passId (runAllocs c₁ calls).1 =
      okResults .passId (runAllocs c₂ (calls.filter AllocCall.isPass)).1 := by
  intro calls
  induction calls with
  | nil => intro c₁ c₂ _ _; rfl
  | cons a rest ih =>
    intro c₁ c₂ h1 h2
    cases a with
    | passId =>
      rw [show (AllocCall.passId :: rest).filter AllocCall.isPass =
            .passId :: rest.filter AllocCall.isPass from rfl,
          runAllocs_cons1, runAllocs_cons1]
      by_cases h : c₁.next_context_id_ < c₁.max_id_
      · have h' : c₂.next_context_id_ < c₂.max_id_ := by
          rw [← h1, ← h2]; exact h
        rw [allocStep_pass_lt1 h, allocStep_pass_lt2 h,
            allocStep_pass_lt1 h', allocStep_pass_lt2 h',
            okResults_cons_ok_self, okResults_cons_ok_self]
        have htail := ih
            { c₁ with next_context_id_ := c₁.next_context_id_ + 1 }
            { c₂ with next_context_id_ := c₂.next_context_id_ + 1 }
            (congrArg (fun n => n + 1) h1) h2
        rw [htail, h1]
      · have h' : ¬ c₂.next_context_id_ < c₂.max_id_ := by
          rw [← h1, ← h2]; exact h
        rw [allocStep_pass_ge1 h, allocStep_pass_ge2 h,
            allocStep_pass_ge1 h', allocStep_pass_ge2 h',
            okResults_cons_err, okResults_cons_err]
        exact ih _ _ h1 h2
    | messageId =>
      rw [show (AllocCall.messageId :: rest).filter AllocCall.isPass =
            rest.filter AllocCall.isPass from rfl,
          runAllocs_cons1]
      by_cases h : c₁.next_autograd_message_id_ < c₁.max_id_
      · rw [allocStep_msg_lt1 h, allocStep_msg_lt2 h,
            okResults_cons_ne (by decide)]
        exact ih _ _ h1 h2
      · rw [allocStep_msg_ge1 h, allocStep_msg_ge2 h, okResults_cons_err]
        exact ih _ _ h1 h2

/-- The message-id results of a mixed run depend only on the message-id
calls: the pass-id counter does not interfere. -/
lemma runAllocs_msg_proj :
    ∀ (calls : List AllocCall) (c₁ c₂ : DistAutogradContainer),
    c₁.next_autograd_message_id_ = c₂.next_autograd_message_id_ →
    c₁.max_id_ = c₂.max_id_ →
    okResults .messageId (runAllocs c₁ calls).1 =
      okResults .messageId (runAllocs c₂ (calls.filter AllocCall.isMsg)).1 := by
  intro calls
  induction calls with
  | nil => intro c₁ c₂ _ _; rfl
  | cons a rest ih =>
    intro c₁ c₂ h1 h2
    cases a with
    | messageId =>
      rw [show (AllocCall.messageId :: rest).filter AllocCall.isMsg =
            .messageId :: rest.filter AllocCall.isMsg from rfl,
          runAllocs_cons1, runAllocs_cons1]
      by_cases h : c₁.next_autograd_message_id_ < c₁.max_id_
      · have h' : c₂.next_autograd_message_id_ < c₂.max_id_ := by
          rw [← h1, ← h2]; exact h
        rw [allocStep_msg_lt1 h, allocStep_msg_lt2 h,
            allocStep_msg_lt1 h', allocStep_msg_lt2 h',
            okResults_cons_ok_self, okResults_cons_ok_self]
        have htail := ih
            { c₁ with next_autograd_message_id_ := c₁.next_autograd_message_id_ + 1 }
            { c₂ with next_autograd_message_id_ := c₂.next_autograd_message_id_ + 1 }
            (congrArg (fun n => n + 1) h1) h2
        rw [htail, h1]
      · have h' : ¬ c₂.next_autograd_message_id_ < c₂.max_id_ := by
          rw [← h1, ← h2]; exact h
        rw [allocStep_msg_ge1 h, allocStep_msg_ge2 h,
            allocStep_msg_ge1 h', allocStep_msg_ge2 h',
            okResults_cons_err, okResults_cons_err]
        exact ih _ _ h1 h2
    | passId =>
      rw [show (AllocCall.passId :: rest).filter AllocCall.isMsg =
            rest.filter AllocCall.isMsg from rfl,
          runAllocs_cons1]
      by_cases h : c₁.next_context_id_ < c₁.max_id_
      · rw [allocStep_pass_lt1 h, allocStep_pass_lt2 h,
            okResults_cons_ne (by decide)]
        exact ih _ _ h1 h2
      · rw [allocStep_pass_ge1 h, allocStep_pass_ge2 h, okResults_cons_err]
        exact ih _ _ h1 h2

/-! ### Context-table facts -/

/-- The keys of the context table: the pass ids with a live context. -/
def tableKeys (c : DistAutogradContainer) : List Nat :=
  c.autograd_context_.map Prod.fst

lemma not_mem_keys_of_lookup_none {l : List (Nat × DistAutogradContext)}
    {k : Nat} (h : l.lookup k = none) : k ∉ l.map Prod.fst := by
  rw [List.lookup_eq_none_iff] at h
  intro hmem
  obtain ⟨p, hp, hpk⟩ := List.mem_map.mp hmem
  have hb := h p hp
  simp [hpk] at hb

lemma lookup_filter_self (k : Nat) (l : List (Nat × DistAutogradContext)) :
    (l.filter (fun p => p.1 != k)).lookup k = none := by
  rw [List.lookup_eq_none_iff]
  intro p hp
  have hb := (List.mem_filter.mp hp).2
  have hne : p.1 ≠ k := by simpa using hb
  simpa using Ne.symm hne

lemma getOrCreate_lookup_some {c : DistAutogradContainer} {k : Nat}
    {ctx : DistAutogradContext} (h : c.autograd_context_.lookup k = some ctx) :
    c.getOrCreateContext k = (ctx, c) := by
  unfold DistAutogradContainer.getOrCreateContext
  rw [h]

lemma getOrCreate_lookup_none {c : DistAutogradContainer} {k : Nat}
    (h : c.autograd_context_.lookup k = none) :
    c.getOrCreateContext k = (⟨k, c.next_stamp_⟩,
      { c with
          autograd_context_ := (k, ⟨k, c.next_stamp_⟩) :: c.autograd_context_
          next_stamp_ := c.next_stamp_ + 1 }) := by
  unfold DistAutogradContainer.getOrCreateContext
  rw [h]

lemma getOrCreate_fields (c : DistAutogradContainer) (k : Nat) :
    (c.getOrCreateContext k).2.worker_id_ = c.worker_id_ ∧
    (c.getOrCreateContext k).2.initialized_ = c.initialized_ ∧
    (c.getOrCreateContext k).2.max_id_ = c.max_id_ := by
  unfold DistAutogradContainer.getOrCreateContext
  split <;> exact ⟨rfl, rfl, rfl⟩

lemma newContext_lt {c : DistAutogradContainer}
    (h : c.next_context_id_ < c.max_id_) :
    c.newContext = .ok
      (({ c with next_context_id_ := c.next_context_id_ + 1 } :
          DistAutogradContainer).getOrCreateContext c.next_context_id_) := by
  unfold DistAutogradContainer.newContext
  rw [newPassId_lt h]

lemma newContext_ge {c : DistAutogradContainer}
    (h : ¬ c.next_context_id_ < c.max_id_) :
    c.newContext = .error .ResourceExhausted := by
  unfold DistAutogradContainer.newContext
  rw [newPassId_ge h]

lemma newContext_ok_fields {c : DistAutogradContainer}
    {p : DistAutogradContext × DistAutogradContainer}
    (h : c.newContext = .ok p) :
    p.2.worker_id_ = c.worker_id_ ∧ p.2.initialized_ = c.initialized_ ∧
    p.2.max_id_ = c.max_id_ := by
  by_cases hlt : c.next_context_id_ < c.max_id_
  · rw [newContext_lt hlt] at h
    injection h with h
    subst h
    exact getOrCreate_fields _ _
  · rw [newContext_ge hlt] at h
    cases h

lemma newMessageId_ok_fields {c : DistAutogradContainer}
    {p : Nat × DistAutogradContainer}
    (h : c.newAutogradMessageId = .ok p) :
    p.2.worker_id_ = c.worker_id_ ∧ p.2.initialized_ = c.initialized_ ∧
    p.2.max_id_ = c.max_id_ := by
  by_cases hlt : c.next_autograd_message_id_ < c.max_id_
  · rw [newMessageId_lt hlt] at h
    injection h with h
    subst h
    exact ⟨rfl, rfl, rfl⟩
  · rw [newMessageId_ge hlt] at h
    cases h

lemma releaseContext_some (c : DistAutogradContainer) (tid k : Nat) (d : Bool)
    (ctx : DistAutogradContext) (h : c.autograd_context_.lookup k = some ctx) :
    c.releaseContext tid k d = .ok (c.eraseContextIdAndReset tid k) := by
  unfold DistAutogradContainer.releaseContext
  rw [h]
  rfl

lemma releaseContext_none (c : DistAutogradContainer) (tid k : Nat) (d : Bool)
    (h : c.autograd_context_.lookup k = none) :
    c.releaseContext tid k d = .error .NotFound := by
  unfold DistAutogradContainer.releaseContext
  rw [h]

lemma releaseContext_ok_eq {c c' : DistAutogradContainer} {tid k : Nat}
    {d : Bool} (h : c.releaseContext tid k d = .ok c') :
    c' = c.eraseContextIdAndReset tid k := by
  cases hl : c.autograd_context_.lookup k with
  | none => rw [releaseContext_none c tid k d hl] at h; cases h
  | some ctx =>
    rw [releaseContext_some c tid k d ctx hl] at h
    injection h with h
    exact h.symm

lemma releaseIfPresent_some (c : DistAutogradContainer) (tid k : Nat)
    (d : Bool) (ctx : DistAutogradContext)
    (h : c.autograd_context_.lookup k = some ctx) :
    c.releaseContextIfPresent tid k d = c.eraseContextIdAndReset tid k := by
  unfold DistAutogradContainer.releaseContextIfPresent
  rw [h]
  rfl

lemma releaseIfPresent_none (c : DistAutogradContainer) (tid k : Nat)
    (d : Bool) (h : c.autograd_context_.lookup k = none) :
    c.releaseContextIfPresent tid k d = c := by
  unfold DistAutogradContainer.releaseContextIfPresent
  rw [h]

lemma setCurrentContextId_bound {c : DistAutogradContainer} {tid x : Nat}
    (k : Nat) (h : c.current_context_id_ tid = some x) :
    c.setCurrentContextId tid k = .error .AlreadyBound := by
  unfold DistAutogradContainer.setCurrentContextId
  rw [h]

lemma setCurrentContextId_free {c : DistAutogradContainer} {tid : Nat}
    (k : Nat) (h : c.current_context_id_ tid = none) :
    c.setCurrentContextId tid k = .ok
      { c with current_context_id_ := fun t =>
          if t = tid then some k else c.current_context_id_ t } := by
  unfold DistAutogradContainer.setCurrentContextId
  rw [h]

lemma setCurrentContextId_ok_eq {c c' : DistAutogradContainer} {tid k : Nat}
    (h : c.setCurrentContextId tid k = .ok c') :
    c.current_context_id_ tid = none ∧
    c' = { c with current_context_id_ := fun t =>
             if t = tid then some k else c.current_context_id_ t } := by
  cases hcur : c.current_context_id_ tid with
  | some y => rw [setCurrentContextId_bound k hcur] at h; cases h
  | none =>
    rw [setCurrentContextId_free k hcur] at h
    injection h with h
    exact ⟨rfl, h.symm⟩

/-! ### Table-key uniqueness along operation sequences -/

lemma tableKeys_getOrCreate {c : DistAutogradContainer} (k : Nat)
    (h : (tableKeys c).Nodup) :
    (tableKeys (c.getOrCreateContext k).2).Nodup := by
  cases hl : c.autograd_context_.lookup k with
  | some ctx => rw [getOrCreate_lookup_some hl]; exact h
  | none =>
    rw [getOrCreate_lookup_none hl]
    exact List.Nodup.cons (not_mem_keys_of_lookup_none hl) h

lemma tableKeys_erase (c : DistAutogradContainer) (tid k : Nat)
    (h : (tableKeys c).Nodup) :
    (tableKeys (c.eraseContextIdAndReset tid k)).Nodup :=
  List.Nodup.sublist
    (List.Sublist.map Prod.fst (List.filter_sublist c.autograd_context_)) h

lemma tableKeys_applyOp (c : DistAutogradContainer) (op : ContainerOp)
    (h : (tableKeys c).Nodup) : (tableKeys (applyOp c op)).Nodup := by
  cases op with
  | opNewContext =>
    cases hnc : c.newContext with
    | error e => simpa [applyOp, hnc] using h
    | ok p =>
      have : (tableKeys p.2).Nodup := by
        by_cases hlt : c.next_context_id_ < c.max_id_
        · rw [newContext_lt hlt] at hnc
          injection hnc with hnc
          subst hnc
          exact tableKeys_getOrCreate _ h
        · rw [newContext_ge hlt] at hnc
          cases hnc
      simpa [applyOp, hnc] using this
  | opNewAutogradMessageId =>
    cases hnm : c.newAutogradMessageId with
    | error e => simpa [applyOp, hnm] using h
    | ok p =>
      have hfields := newMessageId_ok_fields hnm
      have : (tableKeys p.2).Nodup := by
        by_cases hlt : c.next_autograd_message_id_ < c.max_id_
        · rw [newMessageId_lt hlt] at hnm
          injection hnm with hnm
          subst hnm
          exact h
        · rw [newMessageId_ge hlt] at hnm
          cases hnm
      simpa [applyOp, hnm] using this
  | opGetOrCreateContext k => exact tableKeys_getOrCreate k h
  | opReleaseContext tid k d =>
    cases hr : c.releaseContext tid k d with
    | error e => simpa [applyOp, hr] using h
    | ok c' =>
      have := releaseContext_ok_eq hr
      subst this
      simpa [applyOp, hr] using tableKeys_erase c tid k h
  | opReleaseContextIfPresent tid k d =>
    cases hl : c.autograd_context_.lookup k with
    | none => simpa [applyOp, releaseIfPresent_none c tid k d hl] using h
    | some ctx =>
      simpa [applyOp, releaseIfPresent_some c tid k d ctx hl] using
        tableKeys_erase c tid k h
  | opSetCurrentContextId tid k =>
    cases hs : c.setCurrentContextId tid k with
    | error e => simpa [applyOp, hs] using h
    | ok c' =>
      obtain ⟨-, rfl⟩ := setCurrentContextId_ok_eq hs
      simpa [applyOp, hs] using h
  | opClearCurrentContext tid => exact h

lemma tableKeys_runOps (ops : List ContainerOp) :
    ∀ c : DistAutogradContainer, (tableKeys c).Nodup →
      (tableKeys (runOps c ops)).Nodup := by
  induction ops with
  | nil => intro c h; exact h
  | cons op rest ih =>
    intro c h
    exact ih (applyOp c op) (tableKeys_applyOp c op h)

/-! ### Field immutability -/

lemma applyOp_fields (c : DistAutogradContainer) (op : ContainerOp) :
    (applyOp c op).worker_id_ = c.worker_id_ ∧
    (applyOp c op).initialized_ = c.initialized_ ∧
    (applyOp c op).max_id_ = c.max_id_ := by
  cases op with
  | opNewContext =>
    cases hnc : c.newContext with
    | error e => simp [applyOp, hnc]
    | ok p => simpa [applyOp, hnc] using newContext_ok_fields hnc
  | opNewAutogradMessageId =>
    cases hnm : c.newAutogradMessageId with
    | error e => simp [applyOp, hnm]
    | ok p => simpa [applyOp, hnm] using newMessageId_ok_fields hnm
  | opGetOrCreateContext k => exact getOrCreate_fields c k
  | opReleaseContext tid k d =>
    cases hr : c.releaseContext tid k d with
    | error e => simp [applyOp, hr]
    | ok c' =>
      have := releaseContext_ok_eq hr
      subst this
      simp [applyOp, hr, DistAutogradContainer.eraseContextIdAndReset]
  | opReleaseContextIfPresent tid k d =>
    cases hl : c.autograd_context_.lookup k with
    | none => simp [applyOp, releaseIfPresent_none c tid k d hl]
    | some ctx =>
      simp [applyOp, releaseIfPresent_some c tid k d ctx hl,
            DistAutogradContainer.eraseContextIdAndReset]
  | opSetCurrentContextId tid k =>
    cases hs : c.setCurrentContextId tid k with
    | error e => simp [applyOp, hs]
    | ok c' =>
      obtain ⟨-, rfl⟩ := setCurrentContextId_ok_eq hs
      simp [applyOp, hs]
  | opClearCurrentContext tid => exact ⟨rfl, rfl, rfl⟩

lemma runOps_fields (ops : List ContainerOp) :
    ∀ c : DistAutogradContainer,
      (runOps c ops).worker_id_ = c.worker_id_ ∧
      (runOps c ops).initialized_ = c.initialized_ := by
  induction ops with
  | nil => intro c; exact ⟨rfl, rfl⟩
  | cons op rest ih =>
    intro c
    have hstep := applyOp_fields c op
    have htail := ih (applyOp c op)
    exact ⟨htail.1.trans hstep.1, htail.2.trans hstep.2.1⟩

/-! ### Claim theorems -/

/-- Claim C1: For every sequence of successive calls to the pass-id allocator
(and, independently, to `newAutogradMessageId`) on one initialized (well
formed) container: within each family the returned 64-bit values are strictly
increasing; each returned value equals `worker_id_ <<< 48 ||| counter` for the
worker tag given at init and some 48-bit counter; and each family's results
coincide with those of running that family's calls alone, so the two counters
increment independently of each other. -/
theorem alloc_ids_increasing_tagged_independent
    (c : DistAutogradContainer) (hwf : WF c) (calls : List AllocCall) :
    List.Pairwise (· < ·) (okResults .passId (runAllocs c calls).1) ∧
    List.Pairwise (· < ·) (okResults .messageId (runAllocs c calls).1) ∧
    (∀ v ∈ okResults .passId (runAllocs c calls).1,
       ∃ counter, counter < 2 ^ 48 ∧ v = c.worker_id_ <<< 48 ||| counter) ∧
    (∀ v ∈ okResults .messageId (runAllocs c calls).1,
       ∃ counter, counter < 2 ^ 48 ∧ v = c.worker_id_ <<< 48 ||| counter) ∧
    okResults .passId (runAllocs c calls).1 =
      okResults .passId (runAllocs c (calls.filter AllocCall.isPass)).1 ∧
    okResults .messageId (runAllocs c calls).1 =
      okResults .messageId (runAllocs c (calls.filter AllocCall.isMsg)).1 :=
  ⟨runAllocs_pass_pairwise calls c, runAllocs_msg_pairwise calls c,
   runAllocs_pass_format hwf calls, runAllocs_msg_format hwf calls,
   runAllocs_pass_proj calls c c rfl rfl, runAllocs_msg_proj calls c c rfl rfl⟩

/-- Witness for C1: worker tag 3, call sequence pass, message, pass. -/
theorem alloc_ids_increasing_tagged_independent_witness :
    WF (initContainer 3) ∧
    (List.Pairwise (· < ·) (okResults .passId
        (runAllocs (initContainer 3) [.passId, .messageId, .passId]).1) ∧
     List.Pairwise (· < ·) (okResults .messageId
        (runAllocs (initContainer 3) [.passId, .messageId, .passId]).1) ∧
     (∀ v ∈ okResults .passId
          (runAllocs (initContainer 3) [.passId, .messageId, .passId]).1,
        ∃ counter, counter < 2 ^ 48 ∧
          v = (initContainer 3).worker_id_ <<< 48 ||| counter) ∧
     (∀ v ∈ okResults .messageId
          (runAllocs (initContainer 3) [.passId, .messageId, .passId]).1,
        ∃ counter, counter < 2 ^ 48 ∧
          v = (initContainer 3).worker_id_ <<< 48 ||| counter) ∧
     okResults .passId
        (runAllocs (initContainer 3) [.passId, .messageId, .passId]).1 =
       okResults .passId (runAllocs (initContainer 3)
          ([.passId, .messageId, .passId].filter AllocCall.isPass)).1 ∧
     okResults .messageId
        (runAllocs (initContainer 3) [.passId, .messageId, .passId]).1 =
       okResults .messageId (runAllocs (initContainer 3)
          ([.passId, .messageId, .passId].filter AllocCall.isMsg)).1) :=
  ⟨by decide,
   alloc_ids_increasing_tagged_independent (initContainer 3) (by decide)
     [.passId, .messageId, .passId]⟩

/-- Claim C2: `getOrCreateContext` is idempotent per id: a caller finding an id
present gets the existing context and an unchanged table, a repeated call
returns the very same context (same ghost identity stamp) and state, and
along every operation sequence from an initialized container the table never
holds two contexts for one id — at most one live context per pass id. -/
theorem getOrCreateContext_idempotent_unique :
    (∀ (c : DistAutogradContainer) (context_id : Nat)
        (ctx : DistAutogradContext),
       c.autograd_context_.lookup context_id = some ctx →
       c.getOrCreateContext context_id = (ctx, c)) ∧
    (∀ (c : DistAutogradContainer) (context_id : Nat),
       (c.getOrCreateContext context_id).2.getOrCreateContext context_id =
         ((c.getOrCreateContext context_id).1,
          (c.getOrCreateContext context_id).2)) ∧
    (∀ (w : Nat) (ops : List ContainerOp),
       (tableKeys (runOps (initContainer w) ops)).Nodup) := by
  refine ⟨fun c context_id ctx h => getOrCreate_lookup_some h, ?_, ?_⟩
  · intro c context_id
    cases hl : c.autograd_context_.lookup context_id with
    | some ctx =>
      rw [getOrCreate_lookup_some hl, getOrCreate_lookup_some hl]
    | none =>
      rw [getOrCreate_lookup_none hl]
      exact getOrCreate_lookup_some List.lookup_cons_self
  · intro w ops
    exact tableKeys_runOps ops (initContainer w) List.nodup_nil

/-- A container whose table holds exactly one context, keyed 5. -/
def sampleTableC : DistAutogradContainer :=
  ((initContainer 1).getOrCreateContext 5).2

/-- Witness for C2: id 5 is present in `sampleTableC`, and the theorem yields
that `getOrCreateContext 5` returns that very context and leaves the state
unchanged. -/
theorem getOrCreateContext_idempotent_unique_witness :
    sampleTableC.autograd_context_.lookup 5 = some ⟨5, 0⟩ ∧
    sampleTableC.getOrCreateContext 5 = (⟨5, 0⟩, sampleTableC) :=
  ⟨rfl, getOrCreateContext_idempotent_unique.1 sampleTableC 5 ⟨5, 0⟩ rfl⟩

/-- Claim C3: `init` succeeds at most once per process: on an uninitialized
process state it installs the one instance; any further `init` fails with
`AlreadyInitialized`; `getInstance` fails with `NotInitialized` before `init`
and returns the one installed instance afterwards. -/
theorem init_once_instance (w : Nat) :
    init w none = .ok (initContainer w, some (initContainer w)) ∧
    (∀ (w' : Nat) (c : DistAutogradContainer),
       init w' (some c) = .error .AlreadyInitialized) ∧
    getInstance none = .error .NotInitialized ∧
    getInstance (some (initContainer w)) = .ok (initContainer w) :=
  ⟨rfl, fun _ _ => rfl, rfl, rfl⟩

/-- Claim C4: For a pass id present in the table, `releaseContext` removes its
context (a subsequent `retrieveContext` fails with `NotFound`); the erase step
clears the calling thread's cursor when it points at the released id; for an
absent pass id, `releaseContext` fails with `NotFound`. -/
theorem releaseContext_removes_and_strict
    (c : DistAutogradContainer) (tid context_id : Nat) (d : Bool) :
    (∀ ctx, c.autograd_context_.lookup context_id = some ctx →
       c.releaseContext tid context_id d =
           .ok (c.eraseContextIdAndReset tid context_id) ∧
       (c.eraseContextIdAndReset tid context_id).retrieveContext context_id =
           .error .NotFound) ∧
    (c.current_context_id_ tid = some context_id →
       (c.eraseContextIdAndReset tid context_id).current_context_id_ tid =
         none) ∧
    (c.autograd_context_.lookup context_id = none →
       c.releaseContext tid context_id d = .error .NotFound) := by
  refine ⟨?_, ?_, releaseContext_none c tid context_id d⟩
  · intro ctx h
    refine ⟨releaseContext_some c tid context_id d ctx h, ?_⟩
    simp [DistAutogradContainer.retrieveContext,
          DistAutogradContainer.eraseContextIdAndReset, lookup_filter_self]
  · intro h
    simp [DistAutogradContainer.eraseContextIdAndReset, h]

/-- A container holding a context keyed 7, with thread 0's cursor bound to
it. -/
def sampleRelease : DistAutogradContainer :=
  { ((initContainer 1).getOrCreateContext 7).2 with
      current_context_id_ := fun t => if t = 0 then some 7 else none }

/-- Witness for C4: releasing the present id 7 succeeds and empties the table
for it, the cursor of the calling thread is cleared, and releasing the absent
id 9 on a fresh container fails with `NotFound`. -/
theorem releaseContext_removes_and_strict_witness :
    (sampleRelease.autograd_context_.lookup 7 = some ⟨7, 0⟩ ∧
     (sampleRelease.releaseContext 0 7 true =
         .ok (sampleRelease.eraseContextIdAndReset 0 7) ∧
      (sampleRelease.eraseContextIdAndReset 0 7).retrieveContext 7 =
         .error .NotFound)) ∧
    (sampleRelease.current_context_id_ 0 = some 7 ∧
     (sampleRelease.eraseContextIdAndReset 0 7).current_context_id_ 0 =
       none) ∧
    ((initContainer 1).autograd_context_.lookup 9 = none ∧
     (initContainer 1).releaseContext 0 9 true = .error .NotFound) :=
  ⟨⟨rfl, (releaseContext_removes_and_strict sampleRelease 0 7 true).1
       ⟨7, 0⟩ rfl⟩,
   ⟨rfl, (releaseContext_removes_and_strict sampleRelease 0 7 true).2.1 rfl⟩,
   ⟨rfl, (releaseContext_removes_and_strict (initContainer 1) 0 9 true).2.2
       rfl⟩⟩

/-- Claim C5: For a pass id absent from the table, `releaseContextIfPresent`
returns without error and leaves the state unchanged; for a present id it has
the same effect as `releaseContext`. -/
theorem releaseContextIfPresent_noop_or_release
    (c : DistAutogradContainer) (tid context_id : Nat) (d : Bool) :
    (c.autograd_context_.lookup context_id = none →
       c.releaseContextIfPresent tid context_id d = c) ∧
    (∀ ctx, c.autograd_context_.lookup context_id = some ctx →
       c.releaseContext tid context_id d =
         .ok (c.releaseContextIfPresent tid context_id d)) := by
  refine ⟨releaseIfPresent_none c tid context_id d, ?_⟩
  intro ctx h
  rw [releaseIfPresent_some c tid context_id d ctx h,
      releaseContext_some c tid context_id d ctx h]

/-- Witness for C5: the absent id 3 is a no-op on a fresh container; the
present id 7 releases exactly as `releaseContext` does. -/
theorem releaseContextIfPresent_noop_or_release_witness :
    ((initContainer 1).autograd_context_.lookup 3 = none ∧
     (initContainer 1).releaseContextIfPresent 0 3 true = initContainer 1) ∧
    (sampleRelease.autograd_context_.lookup 7 = some ⟨7, 0⟩ ∧
     sampleRelease.releaseContext 0 7 true =
       .ok (sampleRelease.releaseContextIfPresent 0 7 true)) :=
  ⟨⟨rfl, (releaseContextIfPresent_noop_or_release (initContainer 1) 0 3
       true).1 rfl⟩,
   ⟨rfl, (releaseContextIfPresent_noop_or_release sampleRelease 0 7 true).2
       ⟨7, 0⟩ rfl⟩⟩

/-- Claim C6: Once an id counter has reached `max_id_`, the next allocation of
that family (`newPassId` — hence `newContext` — or `newAutogradMessageId`)
fails with `ResourceExhausted` rather than wrapping around or returning a
duplicate of a previously issued id. -/
theorem alloc_exhaustion (c : DistAutogradContainer) :
    (c.next_context_id_ = c.max_id_ →
       c.newPassId = .error .ResourceExhausted ∧
       c.newContext = .error .ResourceExhausted) ∧
    (c.next_autograd_message_id_ = c.max_id_ →
       c.newAutogradMessageId = .error .ResourceExhausted) := by
  constructor
  · intro h
    have hlt : ¬ c.next_context_id_ < c.max_id_ := by omega
    exact ⟨newPassId_ge hlt, newContext_ge hlt⟩
  · intro h
    exact newMessageId_ge (by omega)

/-- A container with both counters seeded to `max_id_`. -/
def exhaustedSample : DistAutogradContainer :=
  { initContainer 2 with
      next_context_id_ := (initContainer 2).max_id_
      next_autograd_message_id_ := (initContainer 2).max_id_ }

/-- Witness for C6 at `exhaustedSample`: both allocators fail with
`ResourceExhausted`. -/
theorem alloc_exhaustion_witness :
    (exhaustedSample.next_context_id_ = exhaustedSample.max_id_ ∧
     (exhaustedSample.newPassId = .error .ResourceExhausted ∧
      exhaustedSample.newContext = .error .ResourceExhausted)) ∧
    (exhaustedSample.next_autograd_message_id_ = exhaustedSample.max_id_ ∧
     exhaustedSample.newAutogradMessageId = .error .ResourceExhausted) :=
  ⟨⟨rfl, (alloc_exhaustion exhaustedSample).1 rfl⟩,
   ⟨rfl, (alloc_exhaustion exhaustedSample).2 rfl⟩⟩

/-- Claim C7: `setCurrentContextId` on a thread whose cursor is already bound
fails with `AlreadyBound`; it succeeds exactly when the calling thread has no
bound cursor, and then binds it. -/
theorem setCurrentContextId_requires_unbound
    (c : DistAutogradContainer) (tid context_id : Nat) :
    (∀ x, c.current_context_id_ tid = some x →
       c.setCurrentContextId tid context_id = .error .AlreadyBound) ∧
    (c.current_context_id_ tid = none →
       ∃ c', c.setCurrentContextId tid context_id = .ok c' ∧
             c'.current_context_id_ tid = some context_id) ∧
    (∀ c', c.setCurrentContextId tid context_id = .ok c' →
       c.current_context_id_ tid = none) := by
  refine ⟨fun x h => setCurrentContextId_bound context_id h, ?_, ?_⟩
  · intro h
    refine ⟨_, setCurrentContextId_free context_id h, ?_⟩
    simp
  · intro c' h
    exact (setCurrentContextId_ok_eq h).1

/-- A container with thread 0's cursor bound to 7 (reusing `sampleRelease`)
and a fresh container with no cursor bound. -/
theorem setCurrentContextId_requires_unbound_witness :
    (sampleRelease.current_context_id_ 0 = some 7 ∧
     sampleRelease.setCurrentContextId 0 11 = .error .AlreadyBound) ∧
    ((initContainer 1).current_context_id_ 0 = none ∧
     ∃ c', (initContainer 1).setCurrentContextId 0 11 = .ok c' ∧
           c'.current_context_id_ 0 = some 11) :=
  ⟨⟨rfl, (setCurrentContextId_requires_unbound sampleRelease 0 11).1 7 rfl⟩,
   ⟨rfl, (setCurrentContextId_requires_unbound (initContainer 1) 0 11).2.1
       rfl⟩⟩

/-- Claim C8: After a successful `setCurrentContextId tid x`, the thread's
`currentContext` returns the context stored for `x` and `hasValidContext` is
true; after `clearCurrentContext` the thread has no valid context; and
`currentContext` on a thread with no bound cursor fails with
`NoActiveContext`. -/
theorem currentContext_follows_cursor
    (c c' : DistAutogradContainer) (tid x : Nat)
    (ctx : DistAutogradContext) :
    (c.setCurrentContextId tid x = .ok c' →
       c.autograd_context_.lookup x = some ctx →
       c'.currentContext tid = .ok ctx ∧
       c'.hasValidContext tid = true ∧
       (c'.clearCurrentContext tid).hasValidContext tid = false) ∧
    (c.current_context_id_ tid = none →
       c.currentContext tid = .error .NoActiveContext) := by
  constructor
  · intro hset hlook
    obtain ⟨-, rfl⟩ := setCurrentContextId_ok_eq hset
    refine ⟨?_, ?_, ?_⟩
    · simp [DistAutogradContainer.currentContext,
            DistAutogradContainer.retrieveContext, hlook]
    · simp [DistAutogradContainer.hasValidContext]
    · simp [DistAutogradContainer.hasValidContext,
            DistAutogradContainer.clearCurrentContext]
  · intro h
    unfold DistAutogradContainer.currentContext
    rw [h]

/-- A container holding a context keyed 4 with no cursor bound. -/
def sampleCursorC : DistAutogradContainer :=
  ((initContainer 1).getOrCreateContext 4).2

/-- The state of `sampleCursorC` after thread 0 binds its cursor to 4. -/
def sampleCursorC' : DistAutogradContainer :=
  { sampleCursorC with
      current_context_id_ := fun t =>
        if t = 0 then some 4 else sampleCursorC.current_context_id_ t }

/-- Witness for C8 at `sampleCursorC`: binding thread 0 to id 4 makes its
current context the stored one, valid until cleared; before binding, the
thread has no active context. -/
theorem currentContext_follows_cursor_witness :
    (sampleCursorC.setCurrentContextId 0 4 = .ok sampleCursorC' ∧
     sampleCursorC.autograd_context_.lookup 4 = some ⟨4, 0⟩ ∧
     (sampleCursorC'.currentContext 0 = .ok ⟨4, 0⟩ ∧
      sampleCursorC'.hasValidContext 0 = true ∧
      (sampleCursorC'.clearCurrentContext 0).hasValidContext 0 = false)) ∧
    (sampleCursorC.current_context_id_ 0 = none ∧
     sampleCursorC.currentContext 0 = .error .NoActiveContext) :=
  ⟨⟨rfl, rfl,
    (currentContext_follows_cursor sampleCursorC sampleCursorC' 0 4
        ⟨4, 0⟩).1 rfl rfl⟩,
   ⟨rfl,
    (currentContext_follows_cursor sampleCursorC sampleCursorC' 0 4
        ⟨4, 0⟩).2 rfl⟩⟩

/-- Claim C9 as stated is false on this code: the header's comment on
`sendReleaseContextRpc` (line 91, "This function should be called with the
lock.") places the outbound peer notification inside the locked section of
the release path, so it *is* issued while the registry lock is held. -/
theorem releaseRpc_locked_counterexample :
    rpcSentWhileLocked 0 (releaseContextTrace 0) = true := by decide

/-- Claim C9 amended: the outbound peer notification during
`releaseContext`/`releaseContextIfPresent` is issued while the registry lock
is held — as the header mandates — and its delivery failures are never
surfaced to the local caller: the outcome and resulting state of release are
independent of the transport outcome. -/
theorem releaseRpc_while_locked_fire_and_forget
    (c : DistAutogradContainer) (tid context_id : Nat) (d₁ d₂ : Bool) :
    rpcSentWhileLocked 0 (releaseContextTrace context_id) = true ∧
    c.releaseContext tid context_id d₁ = c.releaseContext tid context_id d₂ ∧
    c.releaseContextIfPresent tid context_id d₁ =
      c.releaseContextIfPresent tid context_id d₂ := by
  refine ⟨by simp [releaseContextTrace, rpcSentWhileLocked], ?_, ?_⟩
  · cases hl : c.autograd_context_.lookup context_id with
    | none =>
      rw [releaseContext_none c tid context_id d₁ hl,
          releaseContext_none c tid context_id d₂ hl]
    | some ctx =>
      rw [releaseContext_some c tid context_id d₁ ctx hl,
          releaseContext_some c tid context_id d₂ ctx hl]
  · cases hl : c.autograd_context_.lookup context_id with
    | none =>
      rw [releaseIfPresent_none c tid context_id d₁ hl,
          releaseIfPresent_none c tid context_id d₂ hl]
    | some ctx =>
      rw [releaseIfPresent_some c tid context_id d₁ ctx hl,
          releaseIfPresent_some c tid context_id d₂ ctx hl]

/-- Claim C10: The container's identity fields are immutable after `init`:
every public operation preserves `worker_id_`, `initialized_` and `max_id_`,
so along every operation sequence from an initialized container,
`getWorkerId` returns the tag supplied at initialization and the container
stays initialized.  (That the C++ object itself cannot be copied or moved is
the header's deleted copy/move declarations, lines 83-86, a static property;
the model accordingly has a single process-wide instance, see `init` /
`getInstance`.) -/
theorem container_identity_immutable :
    (∀ (c : DistAutogradContainer) (op : ContainerOp),
       (applyOp c op).worker_id_ = c.worker_id_ ∧
       (applyOp c op).initialized_ = c.initialized_ ∧
       (applyOp c op).max_id_ = c.max_id_) ∧
    (∀ (w : Nat) (ops : List ContainerOp),
       (runOps (initContainer w) ops).getWorkerId = w ∧
       (runOps (initContainer w) ops).initialized_ = true) :=
  ⟨applyOp_fields,
   fun w ops => ⟨(runOps_fields ops (initContainer w)).1,
                 (runOps_fields ops (initContainer w)).2⟩⟩

end DistAutograd
